import Mathlib

/-!
Verification of the webmcp-react core: the tool registry
(src/polyfill/registry.ts), the schema validator (src/polyfill/validation.ts)
and the testing execution shim (testing-shim.ts).

The JavaScript code is shallowly embedded: runtime values are modelled by the
inductive type `Value`, DOMException errors by the structure `DOMErr`,
fallible operations return `Except DOMErr`, the mutable registry becomes
explicit state passing over `RegistryState`, the microtask queue of
`queueMicrotask` becomes a counter of queued notification tasks, and the
promise race inside `executeTool` becomes a small step machine over
`AsyncState` driven by an explicit event trace.
-/

namespace WebMCP

/-- A JavaScript number, as far as the validator can observe it:
`NaN`, an infinity, or a finite value (finite doubles are exact rationals). -/
inductive JSNumber where
  | nan : JSNumber
  | inf (neg : Bool) : JSNumber
  | finite (q : ℚ) : JSNumber
deriving DecidableEq

/-- A JavaScript runtime value. `vFun` carries an id standing for a function
object; `vObj` and `vArr` hold structural contents. -/
inductive Value where
  | vUndefined : Value
  | vNull : Value
  | vBool (b : Bool) : Value
  | vNum (n : JSNumber) : Value
  | vStr (s : String) : Value
  | vArr (elems : List Value) : Value
  | vObj (fields : List (String × Value)) : Value
  | vFun (id : Nat) : Value

/-- `Number.isNaN` on the embedded numbers. -/
def jsIsNaN : JSNumber → Bool
  | .nan => true
  | _ => false

/-- `Number.isInteger` on the embedded numbers: finite and whole. -/
def jsIsInteger : JSNumber → Bool
  | .finite q => q.den == 1
  | _ => false

/-- A `DOMException`: `new DOMException(message, name)`. -/
structure DOMErr where
  message : String
  name : String
deriving DecidableEq

/-- registry.ts line 28: invalid `name` at registration. -/
def invalidNameErr : DOMErr :=
  ⟨"Tool name must be a non-empty string", "InvalidStateError"⟩

/-- registry.ts line 31: invalid `description` at registration. -/
def invalidDescrErr : DOMErr :=
  ⟨"Tool description must be a non-empty string", "InvalidStateError"⟩

/-- registry.ts line 34: non-callable `execute` at registration. -/
def invalidExecErr : DOMErr :=
  ⟨"Tool execute must be a function", "InvalidStateError"⟩

/-- registry.ts line 37: duplicate name at registration. -/
def alreadyRegisteredErr (nm : String) : DOMErr :=
  ⟨"Tool \"" ++ nm ++ "\" is already registered", "InvalidStateError"⟩

/-- testing-shim.ts: unknown tool name at execution. -/
def notFoundErr (nm : String) : DOMErr :=
  ⟨"Tool \"" ++ nm ++ "\" not found", "NotFoundError"⟩

/-- testing-shim.ts: cancellation fired before or during execution. -/
def abortedErr : DOMErr :=
  ⟨"Tool execution was aborted", "AbortError"⟩

/-- testing-shim.ts: the input string did not parse as JSON. -/
def invalidJsonErr : DOMErr :=
  ⟨"Invalid JSON input", "OperationError"⟩

/-- testing-shim.ts: the parsed JSON value is not a plain object. -/
def notObjectErr : DOMErr :=
  ⟨"Input must be a JSON object", "OperationError"⟩

/-- validation.ts line 17: a required field is absent. -/
def missingFieldErr (k : String) : DOMErr :=
  ⟨"Missing required field: \"" ++ k ++ "\"", "OperationError"⟩

/-- validation.ts line 31: a field value fails its declared type check. -/
def typeMismatchErr (k t : String) : DOMErr :=
  ⟨"Invalid type for field \"" ++ k ++ "\": expected " ++ t, "OperationError"⟩

/-- testing-shim.ts: `requestUserInteraction` used after the call settled. -/
def inactiveContextErr : DOMErr :=
  ⟨"Tool execution context is no longer active", "InvalidStateError"⟩

/-- The abstract error kinds named by the specification. -/
inductive ErrKind where
  | invalidDescriptor
  | alreadyRegistered
  | notFound
  | invalidInput
  | missingField
  | typeMismatch
  | aborted
  | inactiveContext
deriving DecidableEq, Fintype

/-- Classify a concrete `DOMErr` produced by the core into its error kind,
from the name and message strings the source attaches to each kind. -/
def errKind (e : DOMErr) : Option ErrKind :=
  if e.name = "NotFoundError" then some .notFound
  else if e.name = "AbortError" then some .aborted
  else if e.name = "OperationError" then
    if e.message = "Invalid JSON input" ∨ e.message = "Input must be a JSON object" then
      some .invalidInput
    else if e.message.data.take 24 = "Missing required field: ".data then
      some .missingField
    else if e.message.data.take 24 = "Invalid type for field \"".data then
      some .typeMismatch
    else none
  else if e.name = "InvalidStateError" then
    if e.message = "Tool execution context is no longer active" then
      some .inactiveContext
    else if e.message = "Tool name must be a non-empty string"
        ∨ e.message = "Tool description must be a non-empty string"
        ∨ e.message = "Tool execute must be a function" then
      some .invalidDescriptor
    else if e.message.data.take 6 = "Tool \"".data then
      some .alreadyRegistered
    else none
  else none

/-- The stable symbolic name (the DOMException name) the code attaches to
each error kind. -/
def kindName : ErrKind → String
  | .invalidDescriptor => "InvalidStateError"
  | .alreadyRegistered => "InvalidStateError"
  | .notFound => "NotFoundError"
  | .invalidInput => "OperationError"
  | .missingField => "OperationError"
  | .typeMismatch => "OperationError"
  | .aborted => "AbortError"
  | .inactiveContext => "InvalidStateError"

/-- Kinds that share a DOMException name, grouped. -/
def kindGroup : ErrKind → Nat
  | .invalidDescriptor => 0
  | .alreadyRegistered => 0
  | .inactiveContext => 0
  | .invalidInput => 1
  | .missingField => 1
  | .typeMismatch => 1
  | .notFound => 2
  | .aborted => 3

/-! ## Schema model (types.ts) -/

/-- `InputSchemaProperty`: the declared type of one schema property.
The runtime validator guards with `prop?.type`, so `type` is kept optional. -/
structure InputSchemaProperty where
  type : Option String
  description : Option String
deriving DecidableEq

/-- `InputSchema`: the minimal JSON-Schema-like shape. -/
structure InputSchema where
  type : String
  properties : Option (List (String × InputSchemaProperty))
  required : Option (List String)
deriving DecidableEq

/-- The default schema the registry substitutes for an absent `inputSchema`. -/
def defaultInputSchema : InputSchema :=
  { type := "object", properties := some [], required := none }

/-! ## Schema validator (validation.ts) -/

/-- `val === undefined`. -/
def Value.isUndef : Value → Bool
  | .vUndefined => true
  | _ => false

/-- `args[key]`: property read on a plain object; absent keys read as
`undefined`. -/
def getProp (args : List (String × Value)) (k : String) : Value :=
  ((args.find? (fun p => p.1 == k)).map (·.2)).getD .vUndefined

/-- `schema.properties[key]`. -/
def lookupProp (props : List (String × InputSchemaProperty)) (k : String) :
    Option InputSchemaProperty :=
  (props.find? (fun p => p.1 == k)).map (·.2)

/-- The `TYPE_CHECKERS` record of validation.ts: the runtime check for each
recognized primitive type name, absent for unrecognized names. -/
def typeCheckers : String → Option (Value → Bool)
  | "string" => some fun v => match v with | .vStr _ => true | _ => false
  | "number" => some fun v => match v with | .vNum n => !(jsIsNaN n) | _ => false
  | "integer" => some fun v => match v with | .vNum n => jsIsInteger n | _ => false
  | "boolean" => some fun v => match v with | .vBool _ => true | _ => false
  | "object" => some fun v => match v with | .vObj _ => true | _ => false
  | "array" => some fun v => match v with | .vArr _ => true | _ => false
  | "null" => some fun v => match v with | .vNull => true | _ => false
  | _ => none

/-- The `schema.required` loop of `validateArgs`: throw `missingFieldErr` at
the first required key that reads as `undefined`. -/
def checkRequired (args : List (String × Value)) : List String → Except DOMErr Unit
  | [] => .ok ()
  | k :: rest =>
    if (getProp args k).isUndef then .error (missingFieldErr k)
    else checkRequired args rest

/-- The body of the `schema.properties` loop of `validateArgs` for one key:
skip keys with no declared property, no declared type (or an empty one, which
is falsy), or an unrecognized type; otherwise run the checker. -/
def checkKey (props : List (String × InputSchemaProperty))
    (args : List (String × Value)) (k : String) : Except DOMErr Unit :=
  match lookupProp props k with
  | none => .ok ()
  | some prop =>
    match prop.type with
    | none => .ok ()
    | some t =>
      if t == "" then .ok ()
      else
        match typeCheckers t with
        | none => .ok ()
        | some chk =>
          if chk (getProp args k) then .ok () else .error (typeMismatchErr k t)

/-- The `schema.properties` loop of `validateArgs` over `Object.keys(args)`. -/
def checkProps (props : List (String × InputSchemaProperty))
    (args : List (String × Value)) : List String → Except DOMErr Unit
  | [] => .ok ()
  | k :: rest =>
    match checkKey props args k with
    | .ok _ => checkProps props args rest
    | .error e => .error e

/-- `validateArgs(args, schema)` of validation.ts. -/
def validateArgs (args : List (String × Value)) (schema : InputSchema) :
    Except DOMErr Unit :=
  match (match schema.required with
         | some req => checkRequired args req
         | none => .ok ()) with
  | .error e => .error e
  | .ok _ =>
    match schema.properties with
    | some props => checkProps props args (args.map (·.1))
    | none => .ok ()

/-! Specification-side restatement of the validator contract (used only to
compare against the embedded `validateArgs` for the refinement claim C7). -/

/-- Spec side, from the claim text: the runtime shape check for a declared
type, with unrecognized declared types always valid. -/
def specTypeOk (t : String) (v : Value) : Bool :=
  match t with
  | "string" => match v with | .vStr _ => true | _ => false
  | "number" => match v with | .vNum n => !(jsIsNaN n) | _ => false
  | "integer" => match v with | .vNum n => jsIsInteger n | _ => false
  | "boolean" => match v with | .vBool _ => true | _ => false
  | "object" => match v with | .vObj _ => true | _ => false
  | "array" => match v with | .vArr _ => true | _ => false
  | "null" => match v with | .vNull => true | _ => false
  | _ => true

/-- Spec side: every required name is present (a key bound to `undefined`
counts as absent). -/
def specRequiredOk (args : List (String × Value)) (schema : InputSchema) : Bool :=
  (schema.required.getD []).all (fun k => !(getProp args k).isUndef)

/-- Spec side: every args key declared in `schema.properties` with a declared
type passes the shape check; keys absent from `schema.properties` are
ignored. -/
def specPropsOk (args : List (String × Value)) (schema : InputSchema) : Bool :=
  args.all (fun p =>
    match lookupProp (schema.properties.getD []) p.1 with
    | some prop =>
      match prop.type with
      | some t => specTypeOk t (getProp args p.1)
      | none => true
    | none => true)

/-! ## Tool registry (registry.ts) -/

/-- A caller-supplied tool descriptor, with the fields the registration
checks inspect kept as raw runtime values. -/
structure RawTool where
  name : Value
  description : Value
  execute : Value
  inputSchema : Option InputSchema
  outputSchema : Option InputSchema

/-- `typeof v === "string" && v !== ""`. -/
def nonEmptyStr : Value → Bool
  | .vStr s => !(s == "")
  | _ => false

/-- `typeof v === "function"`. -/
def isCallable : Value → Bool
  | .vFun _ => true
  | _ => false

/-- The registry closure state: the name-to-descriptor map, the
pending-notification flag, plus observables for the microtask queue (how many
notification microtasks are queued) and the subscriber (whether a change
callback is set, and how often it has been invoked). -/
structure RegistryState where
  tools : List (String × RawTool)
  notificationPending : Bool
  queuedNotifications : Nat
  notificationCount : Nat
  callbackSet : Bool

/-- `tools.has(nm)`. -/
def registryHas (tools : List (String × RawTool)) (nm : String) : Bool :=
  tools.any (fun p => p.1 == nm)

/-- `tools.get(nm)`. -/
def registryLookup (tools : List (String × RawTool)) (nm : String) : Option RawTool :=
  (tools.find? (fun p => p.1 == nm)).map (·.2)

/-- `scheduleNotification` of registry.ts: if a notification is already
pending do nothing, otherwise set the flag and queue one microtask. -/
def scheduleNotification (s : RegistryState) : RegistryState :=
  if s.notificationPending then s
  else { s with notificationPending := true,
                queuedNotifications := s.queuedNotifications + 1 }

/-- The shallow copy stored by `registerTool`:
a spread of the descriptor with `inputSchema` defaulted when absent. -/
def storedCopy (t : RawTool) : RawTool :=
  { t with inputSchema := some (t.inputSchema.getD defaultInputSchema) }

/-- `registerTool(tool)` of registry.ts: validity checks, duplicate check,
then store a shallow copy and schedule a notification. -/
def registerTool (s : RegistryState) (t : RawTool) : Except DOMErr RegistryState :=
  match t.name with
  | .vStr nm =>
    if nm == "" then .error invalidNameErr
    else if !(nonEmptyStr t.description) then .error invalidDescrErr
    else if !(isCallable t.execute) then .error invalidExecErr
    else if registryHas s.tools nm then .error (alreadyRegisteredErr nm)
    else .ok (scheduleNotification
      { s with tools := s.tools ++ [(nm, storedCopy t)] })
  | _ => .error invalidNameErr

/-- The registry state after a `registerTool` call: a thrown registration
error leaves the state untouched (every throw in the source precedes the
`tools.set`). -/
def registerToolState (s : RegistryState) (t : RawTool) : RegistryState :=
  match registerTool s t with
  | .ok s' => s'
  | .error _ => s

/-- `unregisterTool(name)`: delete the entry and schedule a notification
only when something was removed. -/
def unregisterTool (s : RegistryState) (nm : String) : RegistryState :=
  if registryHas s.tools nm then
    scheduleNotification { s with tools := s.tools.filter (fun p => p.1 != nm) }
  else s

/-- `clearContext()`: clear the map and schedule a notification only when it
was non-empty. -/
def clearContext (s : RegistryState) : RegistryState :=
  if s.tools.length > 0 then scheduleNotification { s with tools := [] }
  else s

/-- The queued notification microtask: consume one queued task, reset the
pending flag, then invoke the subscribed callback (whose own effects on the
registry are the function `cb`). -/
def runNotificationTask (cb : RegistryState → RegistryState) (s : RegistryState) :
    RegistryState :=
  if s.queuedNotifications = 0 then s
  else
    let s' := { s with queuedNotifications := s.queuedNotifications - 1,
                       notificationPending := false }
    if s'.callbackSet then
      cb { s' with notificationCount := s'.notificationCount + 1 }
    else s'

/-- One synchronous registry mutation. -/
inductive Mutation where
  | register (t : RawTool)
  | unregister (nm : String)
  | clear

/-- Apply one mutation to the registry state (a thrown registration error
propagates to the caller but leaves the state untouched). -/
def applyMutation (s : RegistryState) (m : Mutation) : RegistryState :=
  match m with
  | .register t => registerToolState s t
  | .unregister nm => unregisterTool s nm
  | .clear => clearContext s

/-- A burst of mutations each of which actually changes the stored mapping. -/
def changingBurst : RegistryState → List Mutation → Prop
  | _, [] => True
  | s, m :: ms =>
    (applyMutation s m).tools ≠ s.tools ∧ changingBurst (applyMutation s m) ms

/-! ## Heap model for descriptor aliasing (registry.ts, claim on the shallow
copy). JavaScript objects are mutable and shared by reference, so the copy
behaviour needs an explicit heap: descriptor objects live at addresses, the
caller holds an address, and the spread in `registerTool` allocates a fresh
object with the field values copied at registration time. -/

/-- A heap of descriptor objects. -/
abbrev Heap := List RawTool

/-- A registry whose map stores references (addresses) to the objects it
allocated for the stored copies. -/
structure HeapRegistry where
  tools : List (String × Nat)

/-- `registerTool` against the heap: read the caller object at address `a`,
run the checks of registry.ts, and on success allocate the spread copy as a
fresh object and store its address. `none` means the address is dangling. -/
def heapRegisterTool (h : Heap) (r : HeapRegistry) (a : Nat) :
    Option (Except DOMErr (Heap × HeapRegistry)) :=
  (h[a]?).map fun d =>
    match d.name with
    | .vStr nm =>
      if nm == "" then .error invalidNameErr
      else if !(nonEmptyStr d.description) then .error invalidDescrErr
      else if !(isCallable d.execute) then .error invalidExecErr
      else if r.tools.any (fun p => p.1 == nm) then .error (alreadyRegisteredErr nm)
      else .ok (h ++ [storedCopy d], ⟨r.tools ++ [(nm, h.length)]⟩)
    | _ => .error invalidNameErr

/-- Read a stored descriptor back out of the registry: look up the stored
address and dereference it in the heap. -/
def heapReadTool (h : Heap) (r : HeapRegistry) (nm : String) : Option RawTool :=
  ((r.tools.find? (fun p => p.1 == nm)).map (·.2)).bind (fun a => h[a]?)

/-- Mutate the descriptor object at address `a` (for example reassigning a
top-level field of the caller-owned original after registration). -/
def heapMutate (h : Heap) (a : Nat) (d : RawTool) : Heap := h.set a d

/-! ## Execution shim (testing-shim.ts) -/

/-- `typeof parsed === "object" && parsed !== null && !Array.isArray(parsed)`. -/
def isJsonObjectValue : Value → Bool
  | .vObj _ => true
  | _ => false

/-- The synchronous prefix of `executeTool`, up to and including argument
validation: registry lookup, pre-abort check, JSON parse, object check,
schema validation. `JSON.parse` is a host builtin and is passed in as
`parseJson` (`none` models a parse exception). Returns the target descriptor
and the parsed argument object. -/
def executeToolSync (tools : List (String × RawTool)) (toolName : String)
    (inputJson : String) (parseJson : String → Option Value)
    (signalPresent signalAborted : Bool) :
    Except DOMErr (RawTool × List (String × Value)) :=
  match registryLookup tools toolName with
  | none => .error (notFoundErr toolName)
  | some tool =>
    if signalPresent && signalAborted then .error abortedErr
    else
      match parseJson inputJson with
      | none => .error invalidJsonErr
      | some parsed =>
        match parsed with
        | .vObj fields =>
          (match tool.inputSchema with
           | some schema =>
             match validateArgs fields schema with
             | .ok _ => .ok (tool, fields)
             | .error e => .error e
           | none => .ok (tool, fields))
        | _ => .error notObjectErr

/-- One of the promises inside `executeTool`. -/
inductive PState where
  | pending : PState
  | fulfilled (v : Value) : PState
  | rejected (e : DOMErr) : PState

/-- The asynchronous part of one `executeTool` call, after the target
invocation started: the state of the internal abort promise (`raw`) and of
the invocation result promise (`res`), how many rejection handlers each has
ever had attached (the noop catch on `raw`, and the subscriptions made by
`Promise.race` or by the direct await), the settled overall outcome, the
client-capability liveness flag `contextActive`, and whether the abort listener is
still registered on the signal. -/
structure AsyncState where
  raw : PState
  rawHandlers : Nat
  res : PState
  resHandlers : Nat
  outcome : Option (Except DOMErr (Option String))
  contextActive : Bool
  listenerRegistered : Bool

/-- The `finally` block of `executeTool` together with the settlement of the
overall call: record the outcome, deactivate the client capability and remove
the abort listener. -/
def finalizeCall (st : AsyncState) (r : Except DOMErr (Option String)) : AsyncState :=
  { st with outcome := some r, contextActive := false, listenerRegistered := false }

/-- Settle the awaited race when possible: once the overall call has settled
nothing changes; otherwise the first settled constituent wins, and
`Promise.race([abortPromise, resultPromise])` subscribes to the abort promise
first, so on a tie the abort rejection wins. -/
def settleRace (stringify : Value → Option String) (st : AsyncState) : AsyncState :=
  if st.outcome.isSome then st
  else
    match st.raw with
    | .rejected e => finalizeCall st (.error e)
    | _ =>
      match st.res with
      | .fulfilled v => finalizeCall st (.ok (stringify v))
      | .rejected e => finalizeCall st (.error e)
      | .pending => st

/-- What the registered `execute` function does when invoked. -/
inductive ExecReturn where
  | throws (e : DOMErr) : ExecReturn
  | value (v : Value) : ExecReturn
  | promise : ExecReturn

/-- The observable behaviour of the target invocation: whether it fires the
abort signal synchronously during the call, and whether it throws
synchronously, returns a plain value, or returns a promise that settles later
(through the event trace). -/
structure ExecBehavior where
  abortsDuringCall : Bool
  ret : ExecReturn

/-- The state of the shim right after `tool.execute` was invoked:
the abort listener and the noop-caught abort promise are set up first (when a
signal is supplied), then the invocation runs, then `Promise.race` (or the
direct await when no signal is supplied) subscribes to the promises. -/
def initShim (signalPresent : Bool) (beh : ExecBehavior)
    (stringify : Value → Option String) : AsyncState :=
  let st0 : AsyncState :=
    { raw := .pending
      rawHandlers := if signalPresent then 1 else 0
      res := .pending
      resHandlers := 0
      outcome := none
      contextActive := true
      listenerRegistered := signalPresent }
  let st1 := if beh.abortsDuringCall && st0.listenerRegistered then
    { st0 with raw := .rejected abortedErr } else st0
  match beh.ret with
  | .throws e => finalizeCall st1 (.error e)
  | .value v =>
    settleRace stringify
      { st1 with res := .fulfilled v,
                 resHandlers := st1.resHandlers + 1,
                 rawHandlers := st1.rawHandlers + (if signalPresent then 1 else 0) }
  | .promise =>
    settleRace stringify
      { st1 with resHandlers := st1.resHandlers + 1,
                 rawHandlers := st1.rawHandlers + (if signalPresent then 1 else 0) }

/-- An external event while the call is in flight. -/
inductive ExecEvent where
  | abortFire : ExecEvent
  | resResolve (v : Value) : ExecEvent
  | resReject (e : DOMErr) : ExecEvent

/-- Process one event: the abort listener rejects the abort promise only
while it is registered and the promise is unsettled; the invocation promise
settles on its own schedule regardless of the overall outcome (it is not
force-terminated); after each settlement the race is re-examined. -/
def stepEvent (stringify : Value → Option String) (st : AsyncState)
    (ev : ExecEvent) : AsyncState :=
  match ev with
  | .abortFire =>
    if st.listenerRegistered then
      match st.raw with
      | .pending => settleRace stringify { st with raw := .rejected abortedErr }
      | _ => st
    else st
  | .resResolve v =>
    match st.res with
    | .pending => settleRace stringify { st with res := .fulfilled v }
    | _ => st
  | .resReject e =>
    match st.res with
    | .pending => settleRace stringify { st with res := .rejected e }
    | _ => st

/-- Run the asynchronous part of one `executeTool` call over an event trace. -/
def runShim (signalPresent : Bool) (beh : ExecBehavior) (trace : List ExecEvent)
    (stringify : Value → Option String) : AsyncState :=
  trace.foldl (stepEvent stringify) (initShim signalPresent beh stringify)

/-- A rejected promise with no rejection handler ever attached is an
unhandled rejection. -/
def unhandledRejections (st : AsyncState) : Nat :=
  (match st.raw with
   | .rejected _ => if st.rawHandlers = 0 then 1 else 0
   | _ => 0) +
  (match st.res with
   | .rejected _ => if st.resHandlers = 0 then 1 else 0
   | _ => 0)

/-- The shim state of an `executeTool` call that rejected before invoking
anything: the outcome is the error, no promises were created and no client
capability is active. -/
def erroredCallState (e : DOMErr) : AsyncState :=
  { raw := .pending, rawHandlers := 0, res := .pending, resHandlers := 0,
    outcome := some (.error e), contextActive := false,
    listenerRegistered := false }

/-- The observable result of one complete `executeTool` call. -/
structure ExecCall where
  executeCalled : Bool
  state : AsyncState

/-- `executeTool(toolName, inputArgsJson, options)` of testing-shim.ts: the
synchronous checks, then the invocation of `tool.execute` raced against the
abort signal. `parseJson` and `stringify` stand for the host `JSON` object. -/
def executeTool (tools : List (String × RawTool)) (toolName : String)
    (inputJson : String) (parseJson : String → Option Value)
    (stringify : Value → Option String) (signalPresent signalAborted : Bool)
    (beh : ExecBehavior) (trace : List ExecEvent) : ExecCall :=
  match executeToolSync tools toolName inputJson parseJson signalPresent signalAborted with
  | .error e => { executeCalled := false, state := erroredCallState e }
  | .ok _ => { executeCalled := true, state := runShim signalPresent beh trace stringify }

/-- `requestUserInteraction(callback)` of the client capability constructed
by `executeTool`: invoke the callback while the owning call is active, fail
with the inactive-context error once it is not. -/
def requestUserInteraction (contextActive : Bool)
    (callback : Unit → Except DOMErr Value) : Except DOMErr Value :=
  if contextActive then callback () else .error inactiveContextErr

/-! ## Concrete fixtures used by counterexamples and witnesses -/

/-- A registry with no tools, an empty microtask queue and a subscriber. -/
def emptyRegistry : RegistryState :=
  { tools := [], notificationPending := false, queuedNotifications := 0,
    notificationCount := 0, callbackSet := true }

/-- A well-formed descriptor named `t`. -/
def sampleTool : RawTool :=
  { name := .vStr "t", description := .vStr "d", execute := .vFun 0,
    inputSchema := none, outputSchema := none }

/-- A well-formed descriptor named `u`. -/
def sampleTool2 : RawTool :=
  { name := .vStr "u", description := .vStr "d2", execute := .vFun 1,
    inputSchema := none, outputSchema := none }

/-- A descriptor named `t` with an empty (invalid) description. -/
def badDescTool : RawTool :=
  { sampleTool with description := .vStr "" }

/-- The registry after `sampleTool` was stored (queue already drained). -/
def registryWithT : RegistryState :=
  { emptyRegistry with tools := [("t", storedCopy sampleTool)] }

/-! ## Helper lemmas about the registry -/

theorem scheduleNotification_tools (s : RegistryState) :
    (scheduleNotification s).tools = s.tools := by
  unfold scheduleNotification; split <;> rfl

theorem scheduleNotification_count (s : RegistryState) :
    (scheduleNotification s).notificationCount = s.notificationCount := by
  unfold scheduleNotification; split <;> rfl

theorem scheduleNotification_callbackSet (s : RegistryState) :
    (scheduleNotification s).callbackSet = s.callbackSet := by
  unfold scheduleNotification; split <;> rfl

theorem scheduleNotification_pending (s : RegistryState) :
    (scheduleNotification s).notificationPending = true := by
  unfold scheduleNotification; split <;> simp_all

theorem scheduleNotification_queued_of_pending (s : RegistryState)
    (h : s.notificationPending = true) :
    (scheduleNotification s).queuedNotifications = s.queuedNotifications := by
  unfold scheduleNotification; simp [h]

theorem scheduleNotification_queued_of_not_pending (s : RegistryState)
    (h : s.notificationPending = false) :
    (scheduleNotification s).queuedNotifications = s.queuedNotifications + 1 := by
  unfold scheduleNotification; simp [h]

/-- Shape of a successful registration. -/
theorem registerTool_ok (s : RegistryState) (t : RawTool) (s' : RegistryState)
    (h : registerTool s t = .ok s') :
    ∃ nm, t.name = .vStr nm ∧ (nm == "") = false
      ∧ nonEmptyStr t.description = true ∧ isCallable t.execute = true
      ∧ registryHas s.tools nm = false
      ∧ s' = scheduleNotification
          { s with tools := s.tools ++ [(nm, storedCopy t)] } := by
  unfold registerTool at h
  cases hn : t.name <;> (rw [hn] at h; dsimp only at h) <;>
    try exact (Except.noConfusion h)
  case vStr nm =>
    refine ⟨nm, rfl, ?_⟩
    split_ifs at h with h1 h2 h3 h4 <;> try exact (Except.noConfusion h)
    injection h with h5
    simp_all

/-- A thrown registration error happens before the `tools.set`, so the state
is untouched. -/
theorem registerToolState_of_error (s : RegistryState) (t : RawTool) (e : DOMErr)
    (h : registerTool s t = .error e) : registerToolState s t = s := by
  unfold registerToolState; rw [h]

theorem find?_pair_append {α : Type} (l : List (String × α)) (nm : String) (x : α)
    (h : l.any (fun p => p.1 == nm) = false) :
    ((l ++ [(nm, x)]).find? (fun p => p.1 == nm)).map (·.2) = some x := by
  induction l with
  | nil => simp [List.find?]
  | cons hd tl ih =>
    simp only [List.any_cons, Bool.or_eq_false_iff] at h
    simp only [List.cons_append, List.find?_cons, h.1]
    exact ih h.2

/-! ## C1: error kinds and their symbolic names -/

/-- Claim C1, counterexample: the InvalidDescriptor error and the
AlreadyRegistered error, both actually produced by registerTool, are errors
of distinct kinds carrying the same symbolic name (InvalidStateError), so
distinct error kinds are not pairwise distinguishable by the symbolic name
carried on the error. -/
theorem claim_C1_counterexample :
    registerTool emptyRegistry { sampleTool with name := .vNum .nan }
      = .error invalidNameErr
    ∧ registerTool registryWithT sampleTool = .error (alreadyRegisteredErr "t")
    ∧ errKind invalidNameErr = some .invalidDescriptor
    ∧ errKind (alreadyRegisteredErr "t") = some .alreadyRegistered
    ∧ ErrKind.invalidDescriptor ≠ ErrKind.alreadyRegistered
    ∧ invalidNameErr.name = (alreadyRegisteredErr "t").name :=
  ⟨rfl, rfl, by decide, by decide, by decide, rfl⟩

/-- Claim C1, amended: every error kind carries a stable symbolic name
(the DOMException name), but the names are not pairwise distinct: kinds are
distinguishable by name only up to the groups InvalidDescriptor,
AlreadyRegistered, InactiveContext (InvalidStateError); InvalidInput,
MissingField, TypeMismatch (OperationError); NotFound (NotFoundError);
Aborted (AbortError). Every classified error carries the name of its kind,
the name map realizes exactly that grouping, and each kind is realized by an
error the core produces. -/
theorem claim_C1_amended :
    (∀ (e : DOMErr) (k : ErrKind), errKind e = some k → e.name = kindName k)
    ∧ (∀ k1 k2 : ErrKind, kindName k1 = kindName k2 ↔ kindGroup k1 = kindGroup k2)
    ∧ errKind invalidNameErr = some .invalidDescriptor
    ∧ errKind invalidDescrErr = some .invalidDescriptor
    ∧ errKind invalidExecErr = some .invalidDescriptor
    ∧ errKind (alreadyRegisteredErr "t") = some .alreadyRegistered
    ∧ errKind (notFoundErr "t") = some .notFound
    ∧ errKind invalidJsonErr = some .invalidInput
    ∧ errKind notObjectErr = some .invalidInput
    ∧ errKind (missingFieldErr "q") = some .missingField
    ∧ errKind (typeMismatchErr "q" "string") = some .typeMismatch
    ∧ errKind abortedErr = some .aborted
    ∧ errKind inactiveContextErr = some .inactiveContext := by
  refine ⟨?_, by decide, by decide, by decide, by decide, by decide, by decide,
    by decide, by decide, by decide, by decide, by decide, by decide⟩
  intro e k h
  unfold errKind at h
  split_ifs at h <;>
    first
      | exact (Option.noConfusion h)
      | (injection h with h; subst h; simp_all [kindName])

/-- Witness for the amended C1 at a concrete classified error. -/
theorem claim_C1_amended_witness :
    errKind abortedErr = some ErrKind.aborted
    ∧ abortedErr.name = kindName ErrKind.aborted :=
  ⟨by decide, claim_C1_amended.1 abortedErr ErrKind.aborted (by decide)⟩

/-! ## C2: the registerTool contract -/

/-- The error is one of the three malformed-descriptor errors. -/
def isInvalidDescErr (e : DOMErr) : Prop :=
  e = invalidNameErr ∨ e = invalidDescrErr ∨ e = invalidExecErr

/-- All three descriptor validity checks pass. -/
def validFieldsB (t : RawTool) : Bool :=
  nonEmptyStr t.name && nonEmptyStr t.description && isCallable t.execute

/-- The descriptor name (when it is a string) is already stored. -/
def nameTakenB (s : RegistryState) (t : RawTool) : Bool :=
  match t.name with
  | .vStr nm => registryHas s.tools nm
  | _ => false

theorem alreadyRegisteredErr_message_char (nm : String) :
    ((alreadyRegisteredErr nm).message.data).get? 5 = some '"' := rfl

theorem alreadyRegisteredErr_ne (nm : String) (c : DOMErr)
    (h5 : (c.message.data).get? 5 ≠ some '"') : alreadyRegisteredErr nm ≠ c :=
  fun h => h5 (h ▸ alreadyRegisteredErr_message_char nm)

theorem alreadyRegisteredErr_not_invalidDesc (nm : String) :
    ¬ isInvalidDescErr (alreadyRegisteredErr nm) := by
  rintro (h | h | h)
  · exact alreadyRegisteredErr_ne nm invalidNameErr (by decide) h
  · exact alreadyRegisteredErr_ne nm invalidDescrErr (by decide) h
  · exact alreadyRegisteredErr_ne nm invalidExecErr (by decide) h

/-- Full case analysis of registerTool, mirroring the check order of the
source: name check, description check, execute check, duplicate check,
then the store. -/
theorem registerTool_spec (s : RegistryState) (t : RawTool) :
    (∃ nm, t.name = .vStr nm ∧ ¬nm = "" ∧ nonEmptyStr t.description = true
      ∧ isCallable t.execute = true
      ∧ ((registryHas s.tools nm = true
            ∧ registerTool s t = .error (alreadyRegisteredErr nm))
         ∨ (registryHas s.tools nm = false
            ∧ registerTool s t = .ok (scheduleNotification
                { s with tools := s.tools ++ [(nm, storedCopy t)] }))))
    ∨ (nonEmptyStr t.name = false ∧ registerTool s t = .error invalidNameErr)
    ∨ (∃ nm, t.name = .vStr nm ∧ ¬nm = "" ∧ nonEmptyStr t.description = false
        ∧ registerTool s t = .error invalidDescrErr)
    ∨ (∃ nm, t.name = .vStr nm ∧ ¬nm = "" ∧ nonEmptyStr t.description = true
        ∧ isCallable t.execute = false ∧ registerTool s t = .error invalidExecErr) := by
  cases hn : t.name
  case vStr nm =>
    by_cases h1 : nm = ""
    · refine Or.inr (Or.inl ⟨?_, ?_⟩)
      · simp [nonEmptyStr, h1]
      · simp only [registerTool, hn]
        rw [if_pos (by simp [h1])]
    · by_cases h2 : nonEmptyStr t.description = true
      · by_cases h3 : isCallable t.execute = true
        · refine Or.inl ⟨nm, rfl, h1, h2, h3, ?_⟩
          by_cases h4 : registryHas s.tools nm = true
          · refine Or.inl ⟨h4, ?_⟩
            simp only [registerTool, hn]
            rw [if_neg (by simp [h1]), if_neg (by simp [h2]),
                if_neg (by simp [h3]), if_pos h4]
          · refine Or.inr ⟨by simpa using h4, ?_⟩
            simp only [registerTool, hn]
            rw [if_neg (by simp [h1]), if_neg (by simp [h2]),
                if_neg (by simp [h3]), if_neg h4]
        · refine Or.inr (Or.inr (Or.inr ⟨nm, rfl, h1, h2, by simpa using h3, ?_⟩))
          simp only [registerTool, hn]
          rw [if_neg (by simp [h1]), if_neg (by simp [h2]),
              if_pos (by simpa using h3)]
      · refine Or.inr (Or.inr (Or.inl ⟨nm, rfl, h1, by simpa using h2, ?_⟩))
        simp only [registerTool, hn]
        rw [if_neg (by simp [h1]), if_pos (by simpa using h2)]
  all_goals
    refine Or.inr (Or.inl ⟨rfl, ?_⟩)
  all_goals
    simp only [registerTool, hn]

/-- Claim C2, counterexample: with `t` already stored, registering a
descriptor named `t` whose description is empty fails with the
InvalidDescriptor error, not with AlreadyRegistered, although a descriptor
with the same name is already stored — so "fails with AlreadyRegistered if
and only if the name is already stored" is false as stated. -/
theorem claim_C2_counterexample :
    registryHas registryWithT.tools "t" = true
    ∧ registerTool registryWithT badDescTool = .error invalidDescrErr
    ∧ invalidDescrErr ≠ alreadyRegisteredErr "t" :=
  ⟨rfl, rfl, by decide⟩

/-- Claim C2, amended: registerTool fails with InvalidDescriptor iff the
name is not a non-empty string, the description is not a non-empty string,
or execute is not callable; it fails with AlreadyRegistered(name) iff the
descriptor fields are valid AND the name is already stored (validity
failures take precedence over duplicate detection); every failure leaves the
registry mapping unchanged; otherwise it succeeds. -/
theorem claim_C2_amended (s : RegistryState) (t : RawTool) :
    ((∃ e, registerTool s t = .error e ∧ isInvalidDescErr e)
       ↔ validFieldsB t = false)
    ∧ (∀ nm, t.name = .vStr nm →
        (registerTool s t = .error (alreadyRegisteredErr nm)
          ↔ (validFieldsB t = true ∧ registryHas s.tools nm = true)))
    ∧ (∀ e, registerTool s t = .error e → registerToolState s t = s)
    ∧ (validFieldsB t = true → nameTakenB s t = false →
        ∃ s', registerTool s t = .ok s') := by
  have hspec := registerTool_spec s t
  refine ⟨?_, ?_, fun e he => registerToolState_of_error s t e he, ?_⟩
  · constructor
    · rintro ⟨e, he, hd⟩
      rcases hspec with ⟨nm, hn, h1, h2, h3, hrest⟩ | ⟨h1, he'⟩ |
        ⟨nm, hn, h1, h2, he'⟩ | ⟨nm, hn, h1, h2, h3, he'⟩
      · rcases hrest with ⟨_, he'⟩ | ⟨_, he'⟩
        · rw [he'] at he; injection he with he
          exact absurd (he ▸ hd) (alreadyRegisteredErr_not_invalidDesc nm)
        · rw [he'] at he; exact (Except.noConfusion he)
      · simp [validFieldsB, h1]
      · simp [validFieldsB, h2]
      · simp [validFieldsB, h3]
    · intro hv
      rcases hspec with ⟨nm, hn, h1, h2, h3, hrest⟩ | ⟨h1, he'⟩ |
        ⟨nm, hn, h1, h2, he'⟩ | ⟨nm, hn, h1, h2, h3, he'⟩
      · exfalso
        have : nonEmptyStr t.name = true := by rw [hn]; simp [nonEmptyStr, h1]
        simp [validFieldsB, this, h2, h3] at hv
      · exact ⟨invalidNameErr, he', Or.inl rfl⟩
      · exact ⟨invalidDescrErr, he', Or.inr (Or.inl rfl)⟩
      · exact ⟨invalidExecErr, he', Or.inr (Or.inr rfl)⟩
  · intro nm0 hn0
    constructor
    · intro he
      rcases hspec with ⟨nm, hn, h1, h2, h3, hrest⟩ | ⟨h1, he'⟩ |
        ⟨nm, hn, h1, h2, he'⟩ | ⟨nm, hn, h1, h2, h3, he'⟩
      · have hnm : nm = nm0 := by
          rw [hn0] at hn; injection hn with h; exact h.symm
        subst hnm
        rcases hrest with ⟨h4, he'⟩ | ⟨h4, he'⟩
        · refine ⟨?_, h4⟩
          have : nonEmptyStr t.name = true := by rw [hn]; simp [nonEmptyStr, h1]
          simp [validFieldsB, this, h2, h3]
        · rw [he'] at he; exact (Except.noConfusion he)
      · rw [he'] at he; injection he with he
        exact absurd he.symm (alreadyRegisteredErr_ne nm0 invalidNameErr (by decide))
      · rw [he'] at he; injection he with he
        exact absurd he.symm (alreadyRegisteredErr_ne nm0 invalidDescrErr (by decide))
      · rw [he'] at he; injection he with he
        exact absurd he.symm (alreadyRegisteredErr_ne nm0 invalidExecErr (by decide))
    · rintro ⟨hv, htaken⟩
      rcases hspec with ⟨nm, hn, h1, h2, h3, hrest⟩ | ⟨h1, he'⟩ |
        ⟨nm, hn, h1, h2, he'⟩ | ⟨nm, hn, h1, h2, h3, he'⟩
      · have hnm : nm = nm0 := by
          rw [hn0] at hn; injection hn with h; exact h.symm
        subst hnm
        rcases hrest with ⟨h4, he'⟩ | ⟨h4, he'⟩
        · exact he'
        · rw [htaken] at h4; exact (Bool.noConfusion h4)
      · exfalso
        simp [validFieldsB, h1] at hv
      · simp [validFieldsB, h2] at hv
      · simp [validFieldsB, h3] at hv
  · intro hv htaken
    rcases hspec with ⟨nm, hn, h1, h2, h3, hrest⟩ | ⟨h1, he'⟩ |
      ⟨nm, hn, h1, h2, he'⟩ | ⟨nm, hn, h1, h2, h3, he'⟩
    · rcases hrest with ⟨h4, he'⟩ | ⟨h4, he'⟩
      · exfalso
        unfold nameTakenB at htaken
        rw [hn] at htaken; dsimp only at htaken
        rw [htaken] at h4; exact (Bool.noConfusion h4)
      · exact ⟨_, he'⟩
    · simp [validFieldsB, h1] at hv
    · simp [validFieldsB, h2] at hv
    · simp [validFieldsB, h3] at hv

/-- Witness for the amended C2: the duplicate-with-valid-fields case and the
state-preservation case at concrete inputs. -/
theorem claim_C2_amended_witness :
    registerTool registryWithT sampleTool = .error (alreadyRegisteredErr "t")
    ∧ registerToolState registryWithT badDescTool = registryWithT := by
  constructor
  · exact ((claim_C2_amended registryWithT sampleTool).2.1 "t" rfl).mpr ⟨rfl, rfl⟩
  · exact (claim_C2_amended registryWithT badDescTool).2.2.1 invalidDescrErr rfl

/-! ## C8: the stored inputSchema default -/

theorem registryLookup_append_self (tools : List (String × RawTool)) (nm : String)
    (t : RawTool) (h : registryHas tools nm = false) :
    registryLookup (tools ++ [(nm, t)]) nm = some t :=
  find?_pair_append tools nm t h

/-- Claim C8: a successful registration stores the descriptor under its name
with inputSchema always present, and when the caller supplied no inputSchema
the stored one is the default object-with-no-properties schema. -/
theorem claim_C8 (s : RegistryState) (t : RawTool) (s' : RegistryState)
    (nm : String) (hok : registerTool s t = .ok s') (hn : t.name = .vStr nm) :
    registryLookup s'.tools nm = some (storedCopy t)
    ∧ (storedCopy t).inputSchema.isSome = true
    ∧ (t.inputSchema = none →
        registryLookup s'.tools nm
          = some { t with inputSchema := some defaultInputSchema }) := by
  obtain ⟨nm', hn', hne, hdesc, hexec, hhas, hshape⟩ := registerTool_ok s t s' hok
  have hnm : nm' = nm := by rw [hn] at hn'; injection hn' with h; exact h.symm
  subst hnm
  have htools : s'.tools = s.tools ++ [(nm', storedCopy t)] := by
    rw [hshape, scheduleNotification_tools]
  have hlook : registryLookup s'.tools nm' = some (storedCopy t) := by
    rw [htools]
    exact registryLookup_append_self s.tools nm' (storedCopy t) hhas
  refine ⟨hlook, rfl, fun hnone => ?_⟩
  rw [hlook]
  unfold storedCopy
  rw [hnone]
  rfl

/-- Witness for C8 at a concrete registration without an inputSchema. -/
theorem claim_C8_witness :
    registryLookup (registerToolState emptyRegistry sampleTool).tools "t"
      = some { sampleTool with inputSchema := some defaultInputSchema } := by
  have h := claim_C8 emptyRegistry sampleTool
    (registerToolState emptyRegistry sampleTool) "t" rfl rfl
  exact h.2.2 rfl

/-! ## C9: the registry stores a shallow copy (heap model) -/

/-- Claim C9: registration allocates a fresh copy of the descriptor object,
so mutating the caller-owned original object afterwards (replacing it with
any object whatsoever) leaves the stored entry unchanged. -/
theorem claim_C9 (h : Heap) (r : HeapRegistry) (a : Nat) (d : RawTool)
    (nm : String) (h₁ : Heap) (r₁ : HeapRegistry) (mutated : RawTool)
    (hget : h[a]? = some d) (hn : d.name = .vStr nm)
    (hreg : heapRegisterTool h r a = some (.ok (h₁, r₁))) :
    heapReadTool h₁ r₁ nm = some (storedCopy d)
    ∧ heapReadTool (heapMutate h₁ a mutated) r₁ nm = some (storedCopy d) := by
  have ha : a < h.length := by
    rcases List.getElem?_eq_some.mp hget with ⟨hlt, _⟩
    exact hlt
  unfold heapRegisterTool at hreg
  rw [hget] at hreg
  simp only [Option.map_some'] at hreg
  injection hreg with hreg
  rw [hn] at hreg; dsimp only at hreg
  split_ifs at hreg with h1 h2 h3 h4 <;> try exact (Except.noConfusion hreg)
  injection hreg with hpair
  have hh₁ : h₁ = h ++ [storedCopy d] := (congrArg Prod.fst hpair).symm
  have hr₁ : r₁ = ⟨r.tools ++ [(nm, h.length)]⟩ := (congrArg Prod.snd hpair).symm
  have hfind : ((r₁.tools.find? (fun p => p.1 == nm)).map (·.2)) = some h.length := by
    rw [hr₁]
    exact find?_pair_append r.tools nm h.length (Bool.eq_false_iff.mpr h4)
  have hderef : h₁[h.length]? = some (storedCopy d) := by
    rw [hh₁]
    exact List.getElem?_concat_length h (storedCopy d)
  constructor
  · unfold heapReadTool
    rw [hfind]
    exact hderef
  · unfold heapReadTool heapMutate
    rw [hfind]
    show (h₁.set a mutated)[h.length]? = some (storedCopy d)
    rw [List.getElem?_set_ne (Nat.ne_of_lt ha)]
    exact hderef

/-- Witness for C9: register the sample descriptor from address 0, then
overwrite the original object; the stored copy is unaffected. -/
theorem claim_C9_witness :
    heapReadTool [sampleTool, storedCopy sampleTool] ⟨[("t", 1)]⟩ "t"
      = some (storedCopy sampleTool)
    ∧ heapReadTool (heapMutate [sampleTool, storedCopy sampleTool] 0 badDescTool)
        ⟨[("t", 1)]⟩ "t" = some (storedCopy sampleTool) :=
  claim_C9 [sampleTool] ⟨[]⟩ 0 sampleTool "t" [sampleTool, storedCopy sampleTool]
    ⟨[("t", 1)]⟩ badDescTool rfl rfl rfl

/-! ## C3 and C10: notification batching -/

theorem applyMutation_count (s : RegistryState) (m : Mutation) :
    (applyMutation s m).notificationCount = s.notificationCount
    ∧ (applyMutation s m).callbackSet = s.callbackSet := by
  cases m with
  | register t =>
    simp only [applyMutation, registerToolState]
    cases hr : registerTool s t with
    | error e => exact ⟨rfl, rfl⟩
    | ok s' =>
      obtain ⟨nm, _, _, _, _, _, hshape⟩ := registerTool_ok s t s' hr
      rw [hshape]
      exact ⟨scheduleNotification_count _, scheduleNotification_callbackSet _⟩
  | unregister nm =>
    simp only [applyMutation, unregisterTool]
    by_cases hhas : registryHas s.tools nm = true
    · rw [if_pos hhas]
      exact ⟨scheduleNotification_count _, scheduleNotification_callbackSet _⟩
    · rw [if_neg hhas]
      exact ⟨rfl, rfl⟩
  | clear =>
    simp only [applyMutation, clearContext]
    by_cases hlen : s.tools.length > 0
    · rw [if_pos hlen]
      exact ⟨scheduleNotification_count _, scheduleNotification_callbackSet _⟩
    · rw [if_neg hlen]
      exact ⟨rfl, rfl⟩

theorem applyMutation_pending_true (s : RegistryState) (m : Mutation)
    (h : s.notificationPending = true) :
    (applyMutation s m).notificationPending = true
    ∧ (applyMutation s m).queuedNotifications = s.queuedNotifications := by
  have hs : ∀ (s₂ : RegistryState), s₂.notificationPending = true →
      (scheduleNotification s₂).notificationPending = true
      ∧ (scheduleNotification s₂).queuedNotifications = s₂.queuedNotifications := by
    intro s₂ h₂
    unfold scheduleNotification
    simp [h₂]
  cases m with
  | register t =>
    simp only [applyMutation, registerToolState]
    cases hr : registerTool s t with
    | error e => exact ⟨h, rfl⟩
    | ok s' =>
      obtain ⟨nm, _, _, _, _, _, hshape⟩ := registerTool_ok s t s' hr
      rw [hshape]
      exact hs _ h
  | unregister nm =>
    simp only [applyMutation, unregisterTool]
    by_cases hhas : registryHas s.tools nm = true
    · rw [if_pos hhas]
      exact hs _ h
    · rw [if_neg hhas]
      exact ⟨h, rfl⟩
  | clear =>
    simp only [applyMutation, clearContext]
    by_cases hlen : s.tools.length > 0
    · rw [if_pos hlen]
      exact hs _ h
    · rw [if_neg hlen]
      exact ⟨h, rfl⟩

theorem applyMutation_pending_false_of_change (s : RegistryState) (m : Mutation)
    (hp : s.notificationPending = false)
    (hc : (applyMutation s m).tools ≠ s.tools) :
    (applyMutation s m).notificationPending = true
    ∧ (applyMutation s m).queuedNotifications = s.queuedNotifications + 1 := by
  have hs : ∀ (s₂ : RegistryState), s₂.notificationPending = false →
      (scheduleNotification s₂).notificationPending = true
      ∧ (scheduleNotification s₂).queuedNotifications = s₂.queuedNotifications + 1 := by
    intro s₂ h₂
    unfold scheduleNotification
    simp [h₂]
  cases m with
  | register t =>
    simp only [applyMutation, registerToolState] at hc ⊢
    cases hr : registerTool s t with
    | error e =>
      rw [hr] at hc
      exact absurd rfl hc
    | ok s' =>
      obtain ⟨nm, _, _, _, _, _, hshape⟩ := registerTool_ok s t s' hr
      rw [hshape]
      exact hs _ hp
  | unregister nm =>
    simp only [applyMutation, unregisterTool] at hc ⊢
    by_cases hhas : registryHas s.tools nm = true
    · rw [if_pos hhas]
      exact hs _ hp
    · rw [if_neg hhas] at hc
      exact absurd rfl hc
  | clear =>
    simp only [applyMutation, clearContext] at hc ⊢
    by_cases hlen : s.tools.length > 0
    · rw [if_pos hlen]
      exact hs _ hp
    · rw [if_neg hlen] at hc
      exact absurd rfl hc

theorem runNotificationTask_of_zero (cb : RegistryState → RegistryState)
    (s : RegistryState) (h : s.queuedNotifications = 0) :
    runNotificationTask cb s = s := by
  unfold runNotificationTask
  rw [if_pos h]

/-- Once a notification is pending, any further burst of mutations leaves the
queue, the count and the subscriber untouched. -/
theorem burst_invariant (ms : List Mutation) :
    ∀ (s : RegistryState), s.notificationPending = true →
    (ms.foldl applyMutation s).notificationPending = true
    ∧ (ms.foldl applyMutation s).queuedNotifications = s.queuedNotifications
    ∧ (ms.foldl applyMutation s).notificationCount = s.notificationCount
    ∧ (ms.foldl applyMutation s).callbackSet = s.callbackSet := by
  induction ms with
  | nil => exact fun s h => ⟨h, rfl, rfl, rfl⟩
  | cons m rest ih =>
    intro s h
    obtain ⟨hpend, hq⟩ := applyMutation_pending_true s m h
    obtain ⟨hcount, hcb⟩ := applyMutation_count s m
    obtain ⟨ih1, ih2, ih3, ih4⟩ := ih (applyMutation s m) hpend
    exact ⟨ih1, by rw [List.foldl_cons] at *; rw [ih2, hq],
      by rw [List.foldl_cons] at *; rw [ih3, hcount],
      by rw [List.foldl_cons] at *; rw [ih4, hcb]⟩

/-- Claim C3: a synchronous burst of state-changing registry mutations from a
quiescent subscribed registry queues exactly one notification microtask and
invokes the callback zero times during the burst; draining the queue after
the burst invokes the callback exactly once and leaves the queue empty, and a
further drain does nothing. -/
theorem claim_C3 (s0 : RegistryState) (ms : List Mutation)
    (hp : s0.notificationPending = false) (hq : s0.queuedNotifications = 0)
    (hcb : s0.callbackSet = true) (hne : ms ≠ []) (hchg : changingBurst s0 ms) :
    (ms.foldl applyMutation s0).notificationCount = s0.notificationCount
    ∧ (ms.foldl applyMutation s0).queuedNotifications = 1
    ∧ (runNotificationTask (fun st => st)
        (ms.foldl applyMutation s0)).notificationCount = s0.notificationCount + 1
    ∧ (runNotificationTask (fun st => st)
        (ms.foldl applyMutation s0)).queuedNotifications = 0
    ∧ runNotificationTask (fun st => st)
        (runNotificationTask (fun st => st) (ms.foldl applyMutation s0))
      = runNotificationTask (fun st => st) (ms.foldl applyMutation s0) := by
  cases ms with
  | nil => exact absurd rfl hne
  | cons m rest =>
    obtain ⟨hc1, hcrest⟩ := hchg
    obtain ⟨hpend1, hq1⟩ := applyMutation_pending_false_of_change s0 m hp hc1
    obtain ⟨hcount1, hcb1⟩ := applyMutation_count s0 m
    obtain ⟨hP, hQ, hC, hB⟩ := burst_invariant rest (applyMutation s0 m) hpend1
    rw [List.foldl_cons]
    have hQ1 : (rest.foldl applyMutation (applyMutation s0 m)).queuedNotifications = 1 := by
      rw [hQ, hq1, hq]
    have hC1 : (rest.foldl applyMutation (applyMutation s0 m)).notificationCount
        = s0.notificationCount := by rw [hC, hcount1]
    have hB1 : (rest.foldl applyMutation (applyMutation s0 m)).callbackSet = true := by
      rw [hB, hcb1, hcb]
    have hrun : runNotificationTask (fun st => st)
        (rest.foldl applyMutation (applyMutation s0 m))
        = { rest.foldl applyMutation (applyMutation s0 m) with
            notificationPending := false,
            queuedNotifications :=
              (rest.foldl applyMutation (applyMutation s0 m)).queuedNotifications - 1,
            notificationCount :=
              (rest.foldl applyMutation (applyMutation s0 m)).notificationCount + 1 } := by
      unfold runNotificationTask
      rw [if_neg (by rw [hQ1]; exact Nat.one_ne_zero)]
      simp only [hB1, if_pos]
    have hcount2 : (runNotificationTask (fun st => st)
        (rest.foldl applyMutation (applyMutation s0 m))).notificationCount
        = s0.notificationCount + 1 := by
      rw [hrun]; dsimp only; rw [hC1]
    have hqueue2 : (runNotificationTask (fun st => st)
        (rest.foldl applyMutation (applyMutation s0 m))).queuedNotifications = 0 := by
      rw [hrun]; dsimp only; rw [hQ1]
    exact ⟨hC1, hQ1, hcount2, hqueue2,
      runNotificationTask_of_zero _ _ hqueue2⟩

/-- Witness for C3: two registrations in one burst from the empty registry. -/
theorem claim_C3_witness :
    ([Mutation.register sampleTool, Mutation.register sampleTool2].foldl
        applyMutation emptyRegistry).notificationCount = 0
    ∧ ([Mutation.register sampleTool, Mutation.register sampleTool2].foldl
        applyMutation emptyRegistry).queuedNotifications = 1
    ∧ (runNotificationTask (fun st => st)
        ([Mutation.register sampleTool, Mutation.register sampleTool2].foldl
          applyMutation emptyRegistry)).notificationCount = 1
    ∧ (runNotificationTask (fun st => st)
        ([Mutation.register sampleTool, Mutation.register sampleTool2].foldl
          applyMutation emptyRegistry)).queuedNotifications = 0 := by
  have h := claim_C3 emptyRegistry
    [Mutation.register sampleTool, Mutation.register sampleTool2]
    rfl rfl rfl (by simp)
    ⟨by intro h; exact absurd (congrArg List.length h) (by decide),
     by intro h; exact absurd (congrArg List.length h) (by decide),
     trivial⟩
  exact ⟨h.1, h.2.1, h.2.2.1, h.2.2.2.1⟩

/-- Claim C10: the pending flag is reset before the callback is invoked, so a
state-changing mutation performed from inside the firing callback queues a
fresh notification microtask (queue back to one, flag set again), and that
fresh notification fires the callback a second time on a later drain: the
inner mutation is never lost. -/
theorem claim_C10 (s : RegistryState) (m : Mutation)
    (hq : s.queuedNotifications = 1) (hcb : s.callbackSet = true)
    (hc : (applyMutation
             { s with
                queuedNotifications := 0
                notificationPending := false
                notificationCount := s.notificationCount + 1 } m).tools
           ≠ s.tools) :
    (runNotificationTask (fun st => applyMutation st m) s).notificationPending = true
    ∧ (runNotificationTask (fun st => applyMutation st m) s).queuedNotifications = 1
    ∧ (runNotificationTask (fun st => applyMutation st m) s).notificationCount
        = s.notificationCount + 1
    ∧ (runNotificationTask (fun st => st)
        (runNotificationTask (fun st => applyMutation st m) s)).notificationCount
        = s.notificationCount + 2 := by
  have hfired : runNotificationTask (fun st => applyMutation st m) s
      = applyMutation
          { s with
             queuedNotifications := 0
             notificationPending := false
             notificationCount := s.notificationCount + 1 } m := by
    unfold runNotificationTask
    rw [if_neg (by rw [hq]; exact Nat.one_ne_zero)]
    simp only [hcb, if_pos]
    rw [hq]
  set fired : RegistryState :=
    { s with
       queuedNotifications := 0
       notificationPending := false
       notificationCount := s.notificationCount + 1 } with hfireddef
  have hcf : (applyMutation fired m).tools ≠ fired.tools := by
    rw [hfireddef]
    exact hc
  obtain ⟨hpend, hque⟩ :=
    applyMutation_pending_false_of_change fired m rfl hcf
  obtain ⟨hcount, hcbset⟩ := applyMutation_count fired m
  rw [hfired]
  have hq1 : (applyMutation fired m).queuedNotifications = 1 := by
    rw [hque]
  have hc1 : (applyMutation fired m).notificationCount = s.notificationCount + 1 := by
    rw [hcount]
  have hb1 : (applyMutation fired m).callbackSet = true := by
    rw [hcbset, hcb]
  refine ⟨hpend, hq1, hc1, ?_⟩
  unfold runNotificationTask
  rw [if_neg (by rw [hq1]; exact Nat.one_ne_zero)]
  simp only [hb1, if_pos]
  rw [hc1]

/-- Witness for C10: a registration performed from inside the firing callback
is notified by a second callback invocation. -/
theorem claim_C10_witness :
    (runNotificationTask
      (fun st => applyMutation st (Mutation.register sampleTool2))
      { registryWithT with
         notificationPending := true
         queuedNotifications := 1 }).queuedNotifications = 1
    ∧ (runNotificationTask (fun st => st)
        (runNotificationTask
          (fun st => applyMutation st (Mutation.register sampleTool2))
          { registryWithT with
             notificationPending := true
             queuedNotifications := 1 })).notificationCount = 2 := by
  have h := claim_C10
    { registryWithT with notificationPending := true, queuedNotifications := 1 }
    (Mutation.register sampleTool2) rfl rfl
    (by intro h; exact absurd (congrArg List.length h) (by decide))
  exact ⟨h.2.1, h.2.2.2⟩

/-! ## C7: the validator contract -/

/-- The runtime check the properties loop actually performs for a declared
type equals the spec-side shape check (unknown and empty types always pass). -/
theorem typeCheckers_unknown (t : String) (h1 : ¬t = "string")
    (h2 : ¬t = "number") (h3 : ¬t = "integer") (h4 : ¬t = "boolean")
    (h5 : ¬t = "object") (h6 : ¬t = "array") (h7 : ¬t = "null") :
    typeCheckers t = none := by
  unfold typeCheckers
  split <;> first | rfl | simp_all

theorem specTypeOk_unknown (t : String) (v : Value) (h1 : ¬t = "string")
    (h2 : ¬t = "number") (h3 : ¬t = "integer") (h4 : ¬t = "boolean")
    (h5 : ¬t = "object") (h6 : ¬t = "array") (h7 : ¬t = "null") :
    specTypeOk t v = true := by
  unfold specTypeOk
  split <;> first | rfl | simp_all

theorem checker_eq_spec (t : String) (v : Value) :
    (match typeCheckers t with
     | some chk => chk v
     | none => true) = specTypeOk t v := by
  by_cases h1 : t = "string"
  · subst h1; cases v <;> rfl
  by_cases h2 : t = "number"
  · subst h2; cases v <;> rfl
  by_cases h3 : t = "integer"
  · subst h3; cases v <;> rfl
  by_cases h4 : t = "boolean"
  · subst h4; cases v <;> rfl
  by_cases h5 : t = "object"
  · subst h5; cases v <;> rfl
  by_cases h6 : t = "array"
  · subst h6; cases v <;> rfl
  by_cases h7 : t = "null"
  · subst h7; cases v <;> rfl
  rw [typeCheckers_unknown t h1 h2 h3 h4 h5 h6 h7]
  exact (specTypeOk_unknown t v h1 h2 h3 h4 h5 h6 h7).symm

/-- The required loop of validateArgs succeeds iff no required key is
missing. -/
theorem checkRequired_ok_iff (args : List (String × Value)) (req : List String) :
    checkRequired args req = .ok ()
      ↔ req.all (fun k => !(getProp args k).isUndef) = true := by
  induction req with
  | nil => simp [checkRequired]
  | cons k rest ih =>
    unfold checkRequired
    by_cases h : (getProp args k).isUndef = true
    · simp [h]
    · rw [if_neg (by simpa using h)]
      simp only [List.all_cons, Bool.and_eq_true]
      rw [ih]
      simp [h]

theorem checkRequired_first_missing (args : List (String × Value))
    (req : List String) (k : String)
    (hfind : req.find? (fun n => (getProp args n).isUndef) = some k) :
    checkRequired args req = .error (missingFieldErr k) := by
  induction req with
  | nil => exact absurd hfind (by simp)
  | cons k0 rest ih =>
    rw [List.find?_cons] at hfind
    unfold checkRequired
    by_cases h : (getProp args k0).isUndef = true
    · rw [if_pos h]
      rw [h] at hfind
      injection hfind with hfind
      rw [hfind]
    · rw [if_neg (by simpa using h)]
      rw [Bool.not_eq_true] at h
      rw [h] at hfind
      exact ih hfind

/-- Spec side: the offence the properties loop would report for one key. -/
def keyMismatch (props : List (String × InputSchemaProperty))
    (args : List (String × Value)) (k : String) : Option (String × String) :=
  match lookupProp props k with
  | some prop =>
    match prop.type with
    | some t => if specTypeOk t (getProp args k) then none else some (k, t)
    | none => none
  | none => none

/-- The first offending key of the properties loop, spec side. -/
def firstMismatch (args : List (String × Value)) (schema : InputSchema) :
    Option (String × String) :=
  (args.map (·.1)).findSome? (keyMismatch (schema.properties.getD []) args)

/-- One pass of the properties loop succeeds iff the spec-side shape check
holds for that key. -/
theorem checkKey_ok_iff (props : List (String × InputSchemaProperty))
    (args : List (String × Value)) (k : String) :
    checkKey props args k = .ok () ↔ keyMismatch props args k = none := by
  unfold checkKey keyMismatch
  cases hp : lookupProp props k with
  | none => simp
  | some prop =>
    cases ht : prop.type with
    | none => simp [ht]
    | some t =>
      simp only [ht]
      by_cases hsp : specTypeOk t (getProp args k) = true
      · rw [if_pos hsp]
        by_cases he : t = ""
        · simp [he]
        · rw [if_neg (by simpa using he)]
          have hbridge := checker_eq_spec t (getProp args k)
          cases hc : typeCheckers t with
          | none => dsimp only; simp
          | some chk =>
            rw [hc] at hbridge
            dsimp only at hbridge ⊢
            rw [if_pos (hbridge.trans hsp)]
            simp
      · rw [if_neg hsp]
        have he : ¬t = "" := by
          intro he
          subst he
          exact hsp rfl
        rw [if_neg (by simpa using he)]
        have hbridge := checker_eq_spec t (getProp args k)
        cases hc : typeCheckers t with
        | none =>
          rw [hc] at hbridge
          dsimp only at hbridge
          exact absurd hbridge.symm hsp
        | some chk =>
          rw [hc] at hbridge
          dsimp only at hbridge ⊢
          rw [if_neg (by rw [hbridge]; exact hsp)]
          constructor
          · intro hcontra; exact (Except.noConfusion hcontra)
          · intro hcontra; exact (Option.noConfusion hcontra)

theorem checkKey_error_of_mismatch (props : List (String × InputSchemaProperty))
    (args : List (String × Value)) (k k1 t : String)
    (hm : keyMismatch props args k = some (k1, t)) :
    k1 = k ∧ checkKey props args k = .error (typeMismatchErr k t) := by
  unfold keyMismatch at hm
  unfold checkKey
  cases hp : lookupProp props k with
  | none => rw [hp] at hm; exact (Option.noConfusion hm)
  | some prop =>
    rw [hp] at hm
    dsimp only at hm ⊢
    cases ht : prop.type with
    | none => rw [ht] at hm; exact (Option.noConfusion hm)
    | some t0 =>
      rw [ht] at hm
      dsimp only at hm
      simp only [ht]
      by_cases hsp : specTypeOk t0 (getProp args k) = true
      · rw [if_pos hsp] at hm; exact (Option.noConfusion hm)
      · rw [if_neg hsp] at hm
        injection hm with hm
        have hk1 : k1 = k := (congrArg Prod.fst hm).symm
        have ht0 : t0 = t := congrArg Prod.snd hm
        subst ht0
        refine ⟨hk1, ?_⟩
        have he : ¬t0 = "" := by
          intro he
          subst he
          exact hsp rfl
        rw [if_neg (by simpa using he)]
        have hbridge := checker_eq_spec t0 (getProp args k)
        cases hc : typeCheckers t0 with
        | none =>
          rw [hc] at hbridge
          dsimp only at hbridge
          exact absurd hbridge.symm hsp
        | some chk =>
          rw [hc] at hbridge
          dsimp only at hbridge ⊢
          rw [if_neg (by rw [hbridge]; exact hsp)]

theorem checkProps_ok_iff (props : List (String × InputSchemaProperty))
    (args : List (String × Value)) (keys : List String) :
    checkProps props args keys = .ok ()
      ↔ keys.all (fun k => (keyMismatch props args k).isNone) = true := by
  induction keys with
  | nil => simp [checkProps]
  | cons k rest ih =>
    unfold checkProps
    simp only [List.all_cons, Bool.and_eq_true]
    cases hk : checkKey props args k with
    | ok u =>
      cases u
      have h1 := (checkKey_ok_iff props args k).mp hk
      rw [ih]
      simp [h1]
    | error e =>
      have h1 : ¬(checkKey props args k = .ok ()) := by
        rw [hk]; intro hcontra; exact (Except.noConfusion hcontra)
      rw [checkKey_ok_iff props args k] at h1
      constructor
      · intro hcontra; exact (Except.noConfusion hcontra)
      · rintro ⟨hl, _⟩
        exact absurd (Option.isNone_iff_eq_none.mp hl) h1

theorem checkProps_first_mismatch (props : List (String × InputSchemaProperty))
    (args : List (String × Value)) (keys : List String) (k t : String)
    (hfind : keys.findSome? (keyMismatch props args) = some (k, t)) :
    checkProps props args keys = .error (typeMismatchErr k t) := by
  induction keys with
  | nil => exact absurd hfind (by simp)
  | cons k0 rest ih =>
    rw [List.findSome?_cons] at hfind
    unfold checkProps
    cases hbody : keyMismatch props args k0 with
    | none =>
      rw [hbody] at hfind
      rw [(checkKey_ok_iff props args k0).mpr hbody]
      exact ih hfind
    | some pr =>
      rw [hbody] at hfind
      dsimp only at hfind
      injection hfind with hfind
      subst hfind
      obtain ⟨hk1, herr⟩ := checkKey_error_of_mismatch props args k0 k t hbody
      rw [herr, hk1]

theorem keyMismatch_nil (args : List (String × Value)) (k : String) :
    keyMismatch [] args k = none := rfl

theorem keyMismatch_isNone_iff (props : List (String × InputSchemaProperty))
    (args : List (String × Value)) (k : String) :
    (keyMismatch props args k).isNone = true
      ↔ (match lookupProp props k with
         | some prop =>
           match prop.type with
           | some t => specTypeOk t (getProp args k)
           | none => true
         | none => true) = true := by
  unfold keyMismatch
  set q := lookupProp props k with hq
  cases q with
  | none => simp
  | some prop =>
    dsimp only
    set r := prop.type with hr
    cases r with
    | none => simp
    | some t =>
      dsimp only
      by_cases hsp : specTypeOk t (getProp args k) = true
      · rw [if_pos hsp]
        simp [hsp]
      · rw [if_neg hsp]
        simp [Bool.eq_false_iff.mpr hsp]

theorem specPropsOk_iff_keys (args : List (String × Value)) (schema : InputSchema) :
    specPropsOk args schema = true
      ↔ (args.map (·.1)).all
          (fun k => (keyMismatch (schema.properties.getD []) args k).isNone) = true := by
  unfold specPropsOk
  simp only [List.all_eq_true, List.mem_map]
  constructor
  · rintro h k ⟨p, hp, rfl⟩
    rw [keyMismatch_isNone_iff]
    exact h p hp
  · intro h p hp
    have := h p.1 ⟨p, hp, rfl⟩
    rw [keyMismatch_isNone_iff] at this
    exact this

/-- Claim C7: the validator succeeds iff no required key is missing and every
args key with a declared recognized type passes its shape check (undeclared
keys and unrecognized declared types never fail); when a required key is
missing it fails with MissingField naming the first missing key; when all
required keys are present and some args key fails its declared shape check it
fails with TypeMismatch naming the first offending key and its declared
type. -/
theorem claim_C7 (args : List (String × Value)) (schema : InputSchema) :
    (validateArgs args schema = .ok ()
      ↔ (specRequiredOk args schema = true ∧ specPropsOk args schema = true))
    ∧ (∀ k, (schema.required.getD []).find?
          (fun n => (getProp args n).isUndef) = some k →
        validateArgs args schema = .error (missingFieldErr k))
    ∧ (∀ k t, specRequiredOk args schema = true →
        firstMismatch args schema = some (k, t) →
        validateArgs args schema = .error (typeMismatchErr k t)) := by
  have hreqIff : (match schema.required with
      | some req => checkRequired args req
      | none => Except.ok ()) = Except.ok () ↔ specRequiredOk args schema = true := by
    cases hreq : schema.required with
    | none =>
      unfold specRequiredOk
      rw [hreq]
      simp
    | some req =>
      unfold specRequiredOk
      rw [hreq]
      simp only [Option.getD_some]
      exact checkRequired_ok_iff args req
  have hpropsIff : (match schema.properties with
      | some props => checkProps props args (args.map (·.1))
      | none => Except.ok ()) = Except.ok () ↔ specPropsOk args schema = true := by
    cases hprops : schema.properties with
    | none =>
      rw [specPropsOk_iff_keys, hprops]
      simp only [Option.getD_none]
      constructor
      · intro _
        simp [List.all_eq_true, keyMismatch_nil]
      · intro _; trivial
    | some props =>
      rw [specPropsOk_iff_keys, hprops]
      simp only [Option.getD_some]
      exact checkProps_ok_iff props args (args.map (·.1))
  have hfnil : ∀ keys : List String,
      keys.findSome? (keyMismatch [] args) = none := by
    intro keys
    induction keys with
    | nil => rfl
    | cons k0 rest ih =>
      rw [List.findSome?_cons, keyMismatch_nil]
      exact ih
  refine ⟨?_, ?_, ?_⟩
  · unfold validateArgs
    cases hreqres : (match schema.required with
        | some req => checkRequired args req
        | none => Except.ok ()) with
    | error e =>
      rw [hreqres] at hreqIff
      constructor
      · intro hcontra; exact (Except.noConfusion hcontra)
      · rintro ⟨h1, _⟩
        exact absurd (hreqIff.mpr h1) (by intro hcontra; exact (Except.noConfusion hcontra))
    | ok u =>
      cases u
      have hr : specRequiredOk args schema = true := hreqIff.mp hreqres
      dsimp only
      rw [hpropsIff]
      constructor
      · intro h; exact ⟨hr, h⟩
      · rintro ⟨_, h⟩; exact h
  · intro k hfind
    unfold validateArgs
    cases hreq : schema.required with
    | none =>
      rw [hreq] at hfind
      exact absurd hfind (by simp)
    | some req =>
      rw [hreq] at hfind
      simp only [Option.getD_some] at hfind
      dsimp only
      rw [checkRequired_first_missing args req k hfind]
  · intro k t hreqok hfind
    unfold validateArgs
    unfold firstMismatch at hfind
    have hok : (match schema.required with
        | some req => checkRequired args req
        | none => Except.ok ()) = Except.ok () := hreqIff.mpr hreqok
    rw [hok]
    cases hprops : schema.properties with
    | none =>
      rw [hprops] at hfind
      simp only [Option.getD_none] at hfind
      rw [hfnil (args.map (·.1))] at hfind
      exact (Option.noConfusion hfind)
    | some props =>
      rw [hprops] at hfind
      simp only [Option.getD_some] at hfind
      dsimp only
      exact checkProps_first_mismatch props args (args.map (·.1)) k t hfind

/-- A schema requiring a string field named query. -/
def schemaQuery : InputSchema :=
  { type := "object",
    properties := some [("query", { type := some "string", description := none })],
    required := some ["query"] }

/-- Witness for C7: a missing required field and a type mismatch at concrete
inputs. -/
theorem claim_C7_witness :
    validateArgs [] schemaQuery = .error (missingFieldErr "query")
    ∧ validateArgs [("query", Value.vNum JSNumber.nan)] schemaQuery
        = .error (typeMismatchErr "query" "string") := by
  constructor
  · exact (claim_C7 [] schemaQuery).2.1 "query" rfl
  · exact (claim_C7 [("query", Value.vNum JSNumber.nan)] schemaQuery).2.2
      "query" "string" rfl rfl

/-! ## C4: the pre-invocation rejection order of executeTool -/

/-- Claim C4: executeTool rejects before invoking anything, with the kinds in
the source order: NotFound when the name is unknown (regardless of anything
else); then Aborted when the supplied token is already signaled (regardless
of the input); then InvalidInput for unparsable JSON; then InvalidInput for a
parsed value that is not a plain object; then a validator failure propagated
as-is — and on every such rejection the execute function is never invoked. -/
theorem claim_C4 (tools : List (String × RawTool)) (toolName inputJson : String)
    (parseJson : String → Option Value) (stringify : Value → Option String)
    (sp sa : Bool) (beh : ExecBehavior) (trace : List ExecEvent) :
    (∀ e, executeToolSync tools toolName inputJson parseJson sp sa = .error e →
       executeTool tools toolName inputJson parseJson stringify sp sa beh trace
         = { executeCalled := false, state := erroredCallState e })
    ∧ (registryLookup tools toolName = none →
        executeToolSync tools toolName inputJson parseJson sp sa
          = .error (notFoundErr toolName))
    ∧ (∀ tool, registryLookup tools toolName = some tool → sp = true → sa = true →
        executeToolSync tools toolName inputJson parseJson sp sa = .error abortedErr)
    ∧ (∀ tool, registryLookup tools toolName = some tool → (sp && sa) = false →
        parseJson inputJson = none →
        executeToolSync tools toolName inputJson parseJson sp sa
          = .error invalidJsonErr)
    ∧ (∀ tool v, registryLookup tools toolName = some tool → (sp && sa) = false →
        parseJson inputJson = some v → isJsonObjectValue v = false →
        executeToolSync tools toolName inputJson parseJson sp sa
          = .error notObjectErr)
    ∧ (∀ tool fields schema e, registryLookup tools toolName = some tool →
        (sp && sa) = false → parseJson inputJson = some (.vObj fields) →
        tool.inputSchema = some schema → validateArgs fields schema = .error e →
        executeToolSync tools toolName inputJson parseJson sp sa = .error e) := by
  refine ⟨?_, ?_, ?_, ?_, ?_, ?_⟩
  · intro e he
    unfold executeTool
    rw [he]
  · intro hnone
    unfold executeToolSync
    rw [hnone]
  · intro tool hsome hsp hsa
    unfold executeToolSync
    rw [hsome]
    dsimp only
    rw [if_pos (by rw [hsp, hsa]; rfl)]
  · intro tool hsome hnosig hparse
    unfold executeToolSync
    rw [hsome]
    dsimp only
    rw [if_neg (by rw [hnosig]; exact Bool.false_ne_true), hparse]
  · intro tool v hsome hnosig hparse hnotobj
    unfold executeToolSync
    rw [hsome]
    dsimp only
    rw [if_neg (by rw [hnosig]; exact Bool.false_ne_true), hparse]
    dsimp only
    cases v <;> first
      | rfl
      | exact absurd hnotobj (by simp [isJsonObjectValue])
  · intro tool fields schema e hsome hnosig hparse hschema hval
    unfold executeToolSync
    rw [hsome]
    dsimp only
    rw [if_neg (by rw [hnosig]; exact Bool.false_ne_true), hparse]
    dsimp only
    rw [hschema]
    dsimp only
    rw [hval]

/-- Registry fixture for shim witnesses: one tool named t whose schema
requires a string field query. -/
def queryTool : RawTool :=
  { sampleTool with inputSchema := some schemaQuery }

/-- The shim-facing tool map used by the witnesses. -/
def toolsFix : List (String × RawTool) := [("t", queryTool)]

/-- A tiny concrete stand-in for JSON.parse, total on the inputs the
witnesses use. -/
def parseFix : String → Option Value :=
  fun s =>
    if s = "empty" then some (.vObj [])
    else if s = "arr" then some (.vArr [])
    else if s = "nil" then some .vNull
    else if s = "good" then some (.vObj [("query", .vStr "x")])
    else none

/-- A tiny concrete stand-in for JSON.stringify. -/
def stringifyFix : Value → Option String := fun _ => some "ok"

/-- The invocation behaviour that returns a pending promise. -/
def behPromise : ExecBehavior := { abortsDuringCall := false, ret := .promise }

/-- Witness for C4: each rejection case at concrete inputs. -/
theorem claim_C4_witness :
    executeTool toolsFix "missing" "empty" parseFix stringifyFix false false
      behPromise []
      = { executeCalled := false
          state := erroredCallState (notFoundErr "missing") }
    ∧ executeToolSync toolsFix "t" "empty" parseFix true true = .error abortedErr
    ∧ executeToolSync toolsFix "t" "not json" parseFix false false
        = .error invalidJsonErr
    ∧ executeToolSync toolsFix "t" "arr" parseFix false false
        = .error notObjectErr
    ∧ executeToolSync toolsFix "t" "empty" parseFix false false
        = .error (missingFieldErr "query") := by
  have h1 := claim_C4 toolsFix "missing" "empty" parseFix stringifyFix false false
    behPromise []
  have h2 := claim_C4 toolsFix "t" "empty" parseFix stringifyFix true true
    behPromise []
  have h3 := claim_C4 toolsFix "t" "not json" parseFix stringifyFix false false
    behPromise []
  have h4 := claim_C4 toolsFix "t" "arr" parseFix stringifyFix false false
    behPromise []
  have h5 := claim_C4 toolsFix "t" "empty" parseFix stringifyFix false false
    behPromise []
  refine ⟨?_, ?_, ?_, ?_, ?_⟩
  · exact h1.1 (notFoundErr "missing") (h1.2.1 rfl)
  · exact h2.2.2.1 queryTool rfl rfl rfl
  · exact h3.2.2.2.1 queryTool rfl rfl rfl
  · exact h4.2.2.2.2.1 queryTool (.vArr []) rfl rfl rfl rfl
  · exact h5.2.2.2.2.2 queryTool [] schemaQuery (missingFieldErr "query")
      rfl rfl rfl rfl rfl

/-! ## C5: abort racing the pending invocation -/

theorem settleRace_of_settled (g : Value → Option String) (st : AsyncState)
    (h : st.outcome = some (Except.error abortedErr)) : settleRace g st = st := by
  unfold settleRace
  rw [if_pos (by rw [h]; rfl)]

theorem stepEvent_preserves (g : Value → Option String) (st : AsyncState)
    (ev : ExecEvent) (h1 : st.outcome = some (Except.error abortedErr)) :
    (stepEvent g st ev).outcome = some (Except.error abortedErr)
    ∧ (stepEvent g st ev).rawHandlers = st.rawHandlers
    ∧ (stepEvent g st ev).resHandlers = st.resHandlers := by
  cases ev with
  | abortFire =>
    unfold stepEvent
    dsimp only
    by_cases hl : st.listenerRegistered = true
    · rw [if_pos hl]
      set q := st.raw with hq
      cases q with
      | pending =>
        rw [settleRace_of_settled g _ (by exact h1)]
        exact ⟨h1, rfl, rfl⟩
      | fulfilled v => exact ⟨h1, rfl, rfl⟩
      | rejected e2 => exact ⟨h1, rfl, rfl⟩
    · rw [if_neg hl]
      exact ⟨h1, rfl, rfl⟩
  | resResolve v =>
    unfold stepEvent
    dsimp only
    set q := st.res with hq
    cases q with
    | pending =>
      rw [settleRace_of_settled g _ (by exact h1)]
      exact ⟨h1, rfl, rfl⟩
    | fulfilled w => exact ⟨h1, rfl, rfl⟩
    | rejected e2 => exact ⟨h1, rfl, rfl⟩
  | resReject e2 =>
    unfold stepEvent
    dsimp only
    set q := st.res with hq
    cases q with
    | pending =>
      rw [settleRace_of_settled g _ (by exact h1)]
      exact ⟨h1, rfl, rfl⟩
    | fulfilled w => exact ⟨h1, rfl, rfl⟩
    | rejected e3 => exact ⟨h1, rfl, rfl⟩

theorem foldl_preserves (g : Value → Option String) (evs : List ExecEvent) :
    ∀ st : AsyncState, st.outcome = some (Except.error abortedErr) →
    (evs.foldl (stepEvent g) st).outcome = some (Except.error abortedErr)
    ∧ (evs.foldl (stepEvent g) st).rawHandlers = st.rawHandlers
    ∧ (evs.foldl (stepEvent g) st).resHandlers = st.resHandlers := by
  induction evs with
  | nil => exact fun st h => ⟨h, rfl, rfl⟩
  | cons ev rest ih =>
    intro st h
    obtain ⟨h1, h2, h3⟩ := stepEvent_preserves g st ev h
    obtain ⟨i1, i2, i3⟩ := ih (stepEvent g st ev) h1
    exact ⟨i1, by rw [List.foldl_cons, i2, h2],
      by rw [List.foldl_cons, i3, h3]⟩

theorem unhandled_zero (st : AsyncState) (h2 : st.rawHandlers = 2)
    (h3 : st.resHandlers = 1) : unhandledRejections st = 0 := by
  unfold unhandledRejections
  rw [h2, h3]
  set q := st.raw with hq
  set r := st.res with hr
  cases q <;> cases r <;> simp

/-- Claim C5: on a call with a supplied signal whose invocation is still
pending, firing the abort token settles the call with the Aborted error; the
invocation promise is not force-terminated and still settles on its own
(here: rejecting later); that late rejection never becomes the call outcome
and both internal promises always have a rejection handler attached, so no
unhandled rejection exists. -/
theorem claim_C5 (tools : List (String × RawTool)) (toolName inputJson : String)
    (parseJson : String → Option Value) (stringify : Value → Option String)
    (pr : RawTool × List (String × Value)) (rest : List ExecEvent) (e : DOMErr)
    (hok : executeToolSync tools toolName inputJson parseJson true false = .ok pr) :
    (executeTool tools toolName inputJson parseJson stringify true false
        behPromise (ExecEvent.abortFire :: rest)).state.outcome
      = some (.error abortedErr)
    ∧ unhandledRejections (executeTool tools toolName inputJson parseJson
        stringify true false behPromise (ExecEvent.abortFire :: rest)).state = 0
    ∧ (executeTool tools toolName inputJson parseJson stringify true false
        behPromise [ExecEvent.abortFire, ExecEvent.resReject e]).state.res
      = PState.rejected e
    ∧ (executeTool tools toolName inputJson parseJson stringify true false
        behPromise [ExecEvent.abortFire, ExecEvent.resReject e]).state.outcome
      = some (.error abortedErr) := by
  unfold executeTool
  rw [hok]
  dsimp only
  have habort : stepEvent stringify (initShim true behPromise stringify)
      ExecEvent.abortFire
      = { raw := .rejected abortedErr, rawHandlers := 2, res := .pending
          resHandlers := 1, outcome := some (.error abortedErr)
          contextActive := false, listenerRegistered := false } := rfl
  obtain ⟨ho, hrh, hresh⟩ := foldl_preserves stringify rest
    (stepEvent stringify (initShim true behPromise stringify) ExecEvent.abortFire)
    (by rw [habort])
  refine ⟨ho, ?_, rfl, rfl⟩
  have hstate : runShim true behPromise (ExecEvent.abortFire :: rest) stringify
      = rest.foldl (stepEvent stringify)
          (stepEvent stringify (initShim true behPromise stringify)
            ExecEvent.abortFire) := rfl
  rw [hstate]
  exact unhandled_zero _ (by rw [hrh, habort]) (by rw [hresh, habort])

/-- Witness for C5 at a concrete successful lookup, with the invocation
rejecting after the abort. -/
theorem claim_C5_witness :
    (executeTool toolsFix "t" "good" parseFix stringifyFix true false behPromise
        [ExecEvent.abortFire,
         ExecEvent.resReject (DOMErr.mk "later failure" "Error")]).state.outcome
      = some (.error abortedErr)
    ∧ unhandledRejections (executeTool toolsFix "t" "good" parseFix stringifyFix
        true false behPromise
        [ExecEvent.abortFire,
         ExecEvent.resReject (DOMErr.mk "later failure" "Error")]).state = 0
    ∧ (executeTool toolsFix "t" "good" parseFix stringifyFix true false behPromise
        [ExecEvent.abortFire,
         ExecEvent.resReject (DOMErr.mk "later failure" "Error")]).state.res
      = PState.rejected (DOMErr.mk "later failure" "Error") := by
  have h := claim_C5 toolsFix "t" "good" parseFix stringifyFix
    (queryTool, [("query", Value.vStr "x")])
    [ExecEvent.resReject (DOMErr.mk "later failure" "Error")]
    (DOMErr.mk "later failure" "Error") rfl
  exact ⟨h.1, h.2.1, h.2.2.1⟩

/-! ## C6: the client capability lifecycle -/

theorem settleRace_ctx (g : Value → Option String) (st : AsyncState)
    (h : st.contextActive = st.outcome.isNone) :
    (settleRace g st).contextActive = (settleRace g st).outcome.isNone := by
  unfold settleRace
  by_cases ho : st.outcome.isSome = true
  · rw [if_pos ho]
    exact h
  · rw [if_neg ho]
    set q := st.raw with hq
    cases q with
    | rejected e => rfl
    | pending =>
      set r := st.res with hr
      cases r with
      | pending => exact h
      | fulfilled v => rfl
      | rejected e => rfl
    | fulfilled v =>
      set r := st.res with hr
      cases r with
      | pending => exact h
      | fulfilled w => rfl
      | rejected e => rfl

theorem stepEvent_ctx (g : Value → Option String) (st : AsyncState)
    (ev : ExecEvent) (h : st.contextActive = st.outcome.isNone) :
    (stepEvent g st ev).contextActive = (stepEvent g st ev).outcome.isNone := by
  cases ev with
  | abortFire =>
    unfold stepEvent
    dsimp only
    by_cases hl : st.listenerRegistered = true
    · rw [if_pos hl]
      set q := st.raw with hq
      cases q with
      | pending => exact settleRace_ctx g _ (by exact h)
      | fulfilled v => exact h
      | rejected e => exact h
    · rw [if_neg hl]
      exact h
  | resResolve v =>
    unfold stepEvent
    dsimp only
    set q := st.res with hq
    cases q with
    | pending => exact settleRace_ctx g _ (by exact h)
    | fulfilled w => exact h
    | rejected e => exact h
  | resReject e =>
    unfold stepEvent
    dsimp only
    set q := st.res with hq
    cases q with
    | pending => exact settleRace_ctx g _ (by exact h)
    | fulfilled w => exact h
    | rejected e2 => exact h

theorem initShim_ctx (sp : Bool) (beh : ExecBehavior)
    (g : Value → Option String) :
    (initShim sp beh g).contextActive = (initShim sp beh g).outcome.isNone := by
  unfold initShim
  dsimp only
  by_cases hc : (beh.abortsDuringCall && sp) = true
  · rw [if_pos hc]
    set q := beh.ret with hq
    cases q with
    | throws e => rfl
    | value v => exact settleRace_ctx g _ rfl
    | promise => exact settleRace_ctx g _ rfl
  · rw [if_neg hc]
    set q := beh.ret with hq
    cases q with
    | throws e => rfl
    | value v => exact settleRace_ctx g _ rfl
    | promise => exact settleRace_ctx g _ rfl

theorem runShim_ctx (sp : Bool) (beh : ExecBehavior) (trace : List ExecEvent)
    (g : Value → Option String) :
    (runShim sp beh trace g).contextActive
      = (runShim sp beh trace g).outcome.isNone := by
  unfold runShim
  have hgen : ∀ (evs : List ExecEvent) (st : AsyncState),
      st.contextActive = st.outcome.isNone →
      (evs.foldl (stepEvent g) st).contextActive
        = (evs.foldl (stepEvent g) st).outcome.isNone := by
    intro evs
    induction evs with
    | nil => exact fun st h => h
    | cons ev restl ih =>
      intro st h
      rw [List.foldl_cons]
      exact ih _ (stepEvent_ctx g st ev h)
  exact hgen trace _ (initShim_ctx sp beh g)

/-- Claim C6: the client capability invokes its callback exactly while the
owning executeTool call is in flight. The capability is a pure function of
the contextActive flag: while the flag holds the callback is invoked and its
result returned, once the flag is cleared every call (also through a captured
reference, which closes over the same flag) fails with InactiveContext; and
the flag equals "the call has not settled yet" on every path of executeTool,
so it is cleared on every exit path. -/
theorem claim_C6 :
    (∀ cb : Unit → Except DOMErr Value, requestUserInteraction true cb = cb ())
    ∧ (∀ cb : Unit → Except DOMErr Value,
        requestUserInteraction false cb = .error inactiveContextErr)
    ∧ (∀ (tools : List (String × RawTool)) (toolName inputJson : String)
        (parseJson : String → Option Value) (stringify : Value → Option String)
        (sp sa : Bool) (beh : ExecBehavior) (trace : List ExecEvent),
        (executeTool tools toolName inputJson parseJson stringify sp sa beh
          trace).state.contextActive
          = (executeTool tools toolName inputJson parseJson stringify sp sa beh
              trace).state.outcome.isNone) := by
  refine ⟨fun cb => rfl, fun cb => rfl, ?_⟩
  intro tools toolName inputJson parseJson stringify sp sa beh trace
  unfold executeTool
  cases hs : executeToolSync tools toolName inputJson parseJson sp sa with
  | error e => rfl
  | ok pr => exact runShim_ctx sp beh trace stringify

end WebMCP
